import Mathlib

/-!
Verification development for the excerpted PlayCanvas engine sources:
the `RigidBodyComponentSystem` collision bookkeeping (`_storeCollision`,
`_cleanOldCollisions`, `_hasContactEvent`, `_checkForCollisions`,
`onUpdate`, `onLibraryLoaded`, `raycastAll`, `_shapeTest`, `boxCast`,
`sphereCast`) and the `RenderAction` helpers (`isLayerEnabled`,
`collectDirectionalLights`).

The JavaScript classes are shallowly embedded: JS objects keyed by entity
guid become insertion-ordered association lists, entities carry their guid,
their optional collision/rigidbody components (with the `hasEvent` flags
the system queries) and the truthiness of their `trigger` property, and
event firing is modelled by returning the ordered list of fired events
(contact-point payloads are abstracted to the entities involved).
-/

namespace PCE

/-- Listener flags of one component, as queried through `hasEvent` for the
five event names the rigid-body system uses. -/
structure CompEvents where
  collisionstart : Bool
  collisionend : Bool
  contact : Bool
  triggerenter : Bool
  triggerleave : Bool
deriving DecidableEq, Repr

/-- An engine entity as seen by the rigid-body system: its guid, its optional
collision and rigidbody components together with their listener flags, and
the truthiness of its `trigger` property. -/
structure Entity where
  guid : Nat
  collision : Option CompEvents
  rigidbody : Option CompEvents
  trigger : Bool
deriving DecidableEq, Repr

/-- Names of the events the rigid-body system fires. -/
inductive EvName
  | contact
  | collisionstart
  | collisionend
  | triggerenter
  | triggerleave
deriving DecidableEq, Repr

/-- Target of a fired event: the system itself (global `contact`), or the
collision or rigidbody component of the entity with the given guid. -/
inductive EvTarget
  | system
  | entityColl (guid : Nat)
  | entityRb (guid : Nat)
deriving DecidableEq, Repr

/-- A fired event, abstracted to its target component, its name and the guid
of the other entity it reports. -/
structure Ev where
  target : EvTarget
  name : EvName
  other : Nat
deriving DecidableEq, Repr

/-- One entry of the `collisions` / `frameCollisions` maps:
`{ others: [...], entity: entity }`. -/
structure CollisionEntry where
  entity : Entity
  others : List Entity
deriving DecidableEq, Repr

/-- The `collisions` and `frameCollisions` JS objects, keyed by guid, as
insertion-ordered association lists. -/
abbrev CollMap := List (Nat × CollisionEntry)

/-- Lookup of `map[guid]` in a guid-keyed JS object. -/
def lookupG (g : Nat) : CollMap → Option CollisionEntry
  | [] => none
  | (k, e) :: rest => if k = g then some e else lookupG g rest

/-- Assignment `map[guid] = e` in a guid-keyed JS object: an existing key
keeps its position, a new key is appended. -/
def updateG (g : Nat) (e : CollisionEntry) : CollMap → CollMap
  | [] => [(g, e)]
  | (k, e') :: rest => if k = g then (k, e) :: rest else (k, e') :: updateG g e rest

/-- The slice of `RigidBodyComponentSystem` state the collision bookkeeping
reads and writes: `this.collisions`, `this.frameCollisions`, and whether the
system itself has a global `contact` listener (`this.hasEvent('contact')`). -/
structure SysState where
  collisions : CollMap
  frameCollisions : CollMap
  sysContactEvent : Bool
deriving DecidableEq, Repr

/-- The `others` list of `map[g]`, or `[]` when the key is absent. -/
def othersOf (m : CollMap) (g : Nat) : List Entity :=
  ((lookupG g m).map CollisionEntry.others).getD []

/-- The `entity` stored in `map[g]`, or the default when the key is absent. -/
def entityOf (m : CollMap) (g : Nat) (dflt : Entity) : Entity :=
  ((lookupG g m).map CollisionEntry.entity).getD dflt

/-- Embeds `RigidBodyComponentSystem#_storeCollision`: ensure the entry for
`entity.getGuid()` exists in `collisions`, push `other` there when absent
(returning whether it was a new collision), and push `other` onto the frame
entry unconditionally. -/
def storeCollision (s : SysState) (entity other : Entity) : Bool × SysState :=
  let guid := entity.guid
  let entry := (lookupG guid s.collisions).getD ⟨entity, []⟩
  let isNew : Bool := decide (other ∉ entry.others)
  let entry' : CollisionEntry :=
    if other ∈ entry.others then entry else ⟨entry.entity, entry.others ++ [other]⟩
  let fentry := (lookupG guid s.frameCollisions).getD ⟨entity, []⟩
  let fentry' : CollisionEntry := ⟨fentry.entity, fentry.others ++ [other]⟩
  (isNew, { s with collisions := updateG guid entry' s.collisions,
                   frameCollisions := updateG guid fentry' s.frameCollisions })

/-- A single event fired only when its guard holds (`[]` otherwise). -/
def guardedEv (fire : Bool) (t : EvTarget) (n : EvName) (otherGuid : Nat) : List Ev :=
  if fire then [⟨t, n, otherGuid⟩] else []

/-- Events fired by `_cleanOldCollisions` for one vanished contact `other` of
`entity`: `triggerleave` when the entity is a trigger, `collisionend` on the
entity's rigidbody then collision component when neither entity is a trigger,
nothing when only the other entity is a trigger. -/
def leaveEvents (entity other : Entity) : List Ev :=
  if entity.trigger then
    guardedEv entity.collision.isSome (EvTarget.entityColl entity.guid)
      EvName.triggerleave other.guid ++
    guardedEv other.rigidbody.isSome (EvTarget.entityRb other.guid)
      EvName.triggerleave entity.guid
  else if other.trigger then []
  else
    guardedEv entity.rigidbody.isSome (EvTarget.entityRb entity.guid)
      EvName.collisionend other.guid ++
    guardedEv entity.collision.isSome (EvTarget.entityColl entity.guid)
      EvName.collisionend other.guid

/-- The backwards splice loop of `_cleanOldCollisions` over one entry's
`others` array: keeps the others present in the frame entry and fires the
leave events for removed ones, last index first. -/
def cleanOthers (entity : Entity) (frameOthers : List Entity) :
    List Entity → List Entity × List Ev
  | [] => ([], [])
  | o :: rest =>
    let r := cleanOthers entity frameOthers rest
    if o ∈ frameOthers then (o :: r.1, r.2) else (r.1, r.2 ++ leaveEvents entity o)

/-- The `others` list of the frame entry for `g`, `[]` when the frame entry is
absent (the `!frameCollision` case of the source). -/
def frameOthersOf (frame : CollMap) (g : Nat) : List Entity :=
  ((lookupG g frame).map CollisionEntry.others).getD []

/-- The `for (const guid in this.collisions)` loop of `_cleanOldCollisions`:
clean every entry against the frame map, dropping entries whose `others`
became empty. -/
def cleanCollList (frame : CollMap) : CollMap → CollMap × List Ev
  | [] => ([], [])
  | (g, entry) :: rest =>
    let r0 := cleanOthers entry.entity (frameOthersOf frame g) entry.others
    let r1 := cleanCollList frame rest
    ((if r0.1.isEmpty then r1.1 else (g, ⟨entry.entity, r0.1⟩) :: r1.1), r0.2 ++ r1.2)

/-- Embeds `RigidBodyComponentSystem#_cleanOldCollisions`. -/
def cleanOldCollisions (s : SysState) : SysState × List Ev :=
  let r := cleanCollList s.frameCollisions s.collisions
  ({ s with collisions := r.1 }, r.2)

/-- Whether an optional component has any of the `collisionstart`,
`collisionend`, `contact` listeners. -/
def compContactEvents : Option CompEvents → Bool
  | some c => c.collisionstart || c.collisionend || c.contact
  | none => false

/-- Embeds `RigidBodyComponentSystem#_hasContactEvent`. -/
def hasContactEvent (e : Entity) : Bool :=
  compContactEvents e.collision || compContactEvents e.rigidbody

/-- Whether an optional component has a `triggerenter` or `triggerleave`
listener. -/
def compTriggerEvents : Option CompEvents → Bool
  | some c => c.triggerenter || c.triggerleave
  | none => false

/-- Events fired on one listening entity's components in the contact branch of
`_checkForCollisions`: `contact` always, followed by `collisionstart` when the
stored collision was new, first on the collision component, then on the
rigidbody component. -/
def contactEventsFor (target other : Entity) (isNew : Bool) : List Ev :=
  guardedEv target.collision.isSome (EvTarget.entityColl target.guid)
    EvName.contact other.guid ++
  guardedEv (target.collision.isSome && isNew) (EvTarget.entityColl target.guid)
    EvName.collisionstart other.guid ++
  guardedEv target.rigidbody.isSome (EvTarget.entityRb target.guid)
    EvName.contact other.guid ++
  guardedEv (target.rigidbody.isSome && isNew) (EvTarget.entityRb target.guid)
    EvName.collisionstart other.guid

/-- The trigger branch of `_checkForCollisions` for one manifold whose bodies
carry a no-response flag: the `newCollision` variable threads through the four
listener blocks, each block stores the collision when needed and fires its
`triggerenter` event under the source's guard. -/
def processTriggerPath (s : SysState) (e0 e1 : Entity) (f0 f1 : Bool) :
    SysState × List Ev :=
  let e0Events := compTriggerEvents e0.collision
  let e1Events := compTriggerEvents e1.collision
  let e0BodyEvents := compTriggerEvents e0.rigidbody
  let e1BodyEvents := compTriggerEvents e1.rigidbody
  let rA : Bool × SysState := if e0Events then storeCollision s e0 e1 else (false, s)
  let rB : Bool × SysState := if e1Events then storeCollision rA.2 e1 e0 else rA
  let rC : Bool × SysState :=
    if e0BodyEvents then (if rB.1 then rB else storeCollision rB.2 e1 e0) else rB
  let rD : Bool × SysState :=
    if e1BodyEvents then (if rC.1 then rC else storeCollision rC.2 e0 e1) else rC
  (rD.2,
    guardedEv (e0Events && rA.1 && !f1) (EvTarget.entityColl e0.guid)
      EvName.triggerenter e1.guid ++
    guardedEv (e1Events && rB.1 && !f0) (EvTarget.entityColl e1.guid)
      EvName.triggerenter e0.guid ++
    guardedEv (e0BodyEvents && rC.1) (EvTarget.entityRb e0.guid)
      EvName.triggerenter e1.guid ++
    guardedEv (e1BodyEvents && rD.1) (EvTarget.entityRb e1.guid)
      EvName.triggerenter e0.guid)

/-- The contact branch of `_checkForCollisions` for one manifold with no
no-response flag: global `contact` events once per contact point, then the
per-entity `contact` / `collisionstart` events for each listening entity. -/
def processContactPath (s : SysState) (e0 e1 : Entity) (numContacts : Nat) :
    SysState × List Ev :=
  let e0Events := hasContactEvent e0
  let e1Events := hasContactEvent e1
  let globalEvents := s.sysContactEvent
  if globalEvents || e0Events || e1Events then
    let globalEvs :=
      if globalEvents then
        List.replicate numContacts (⟨EvTarget.system, EvName.contact, e1.guid⟩ : Ev)
      else []
    let r0 : SysState × List Ev :=
      if e0Events then
        let r := storeCollision s e0 e1
        (r.2, contactEventsFor e0 e1 r.1)
      else (s, [])
    let r1 : SysState × List Ev :=
      if e1Events then
        let r := storeCollision r0.1 e1 e0
        (r.2, contactEventsFor e1 e0 r.1)
      else (r0.1, [])
    (r1.1, globalEvs ++ r0.2 ++ r1.2)
  else (s, [])

/-- One Ammo contact manifold as seen through the binding: the two wrapped
bodies' entities (`none` models a null `body.entity`), the two bodies'
`BODYFLAG_NORESPONSE_OBJECT` collision-flag bits, and the number of contact
points. -/
structure Manifold where
  e0 : Option Entity
  e1 : Option Entity
  flags0NoResponse : Bool
  flags1NoResponse : Bool
  numContacts : Nat
deriving DecidableEq, Repr

/-- The body of the manifold loop of `_checkForCollisions`: skip when an
entity is null or there are no contacts, otherwise dispatch on the
no-response flags. -/
def processManifold (s : SysState) (m : Manifold) : SysState × List Ev :=
  match m.e0, m.e1 with
  | some e0, some e1 =>
    if 0 < m.numContacts then
      if m.flags0NoResponse || m.flags1NoResponse then
        processTriggerPath s e0 e1 m.flags0NoResponse m.flags1NoResponse
      else
        processContactPath s e0 e1 m.numContacts
    else (s, [])
  | _, _ => (s, [])

/-- Processes the dispatcher's manifolds in order, accumulating events. -/
def processManifolds (s : SysState) : List Manifold → SysState × List Ev
  | [] => (s, [])
  | m :: ms =>
    let r0 := processManifold s m
    let r1 := processManifolds r0.1 ms
    (r1.1, r0.2 ++ r1.2)

/-- Embeds `RigidBodyComponentSystem#_checkForCollisions`: reset
`frameCollisions` to an empty map, process every manifold of the dispatcher
in order, then run `_cleanOldCollisions`. -/
def checkForCollisions (s : SysState) (ms : List Manifold) : SysState × List Ev :=
  let r1 := processManifolds { s with frameCollisions := [] } ms
  let r2 := cleanOldCollisions r1.1
  (r2.1, r1.2 ++ r2.2)

/-- A directional light as the render action sees it: an identity and its
`castShadows` flag. -/
structure Light where
  id : Nat
  castShadows : Bool
deriving DecidableEq, Repr

/-- A layer as the render action sees it: its `enabled` flag and its
`_lightsSet` (a finite set of lights, as a list). -/
structure Layer where
  enabled : Bool
  lightsSet : List Light
deriving DecidableEq, Repr

/-- The slice of `LayerComposition` that `RenderAction#isLayerEnabled`
reads. -/
structure LayerComposition where
  layerList : List Layer
  subLayerEnabled : List Bool
deriving DecidableEq, Repr

/-- A render action, reduced to the `layerIndex` field its embedded methods
read. -/
structure RenderAction where
  layerIndex : Nat
deriving DecidableEq, Repr

/-- Embeds `RenderAction#isLayerEnabled`:
`layerList[layerIndex].enabled && subLayerEnabled[layerIndex]`. A missing
`subLayerEnabled` entry is falsy in the JS conjunction, modelled by
`getD false`; a missing layer is a JS type error, the model returns `false`
and the theorems only consider in-range indices. -/
def RenderAction.isLayerEnabled (ra : RenderAction) (c : LayerComposition) : Bool :=
  (((c.layerList.get? ra.layerIndex).map Layer.enabled).getD false) &&
  ((c.subLayerEnabled.get? ra.layerIndex).getD false)

/-- The inner layer loop body of `RenderAction#collectDirectionalLights`: when
the layer's light set has the light and the directional-lights set does not
yet, add it to the set and push it onto the array. -/
def addLightFromLayer (light : Light) (st : List Light × List Light) (layer : Layer) :
    List Light × List Light :=
  if light ∈ layer.lightsSet then
    if light ∈ st.1 then st else (st.1 ++ [light], st.2 ++ [light])
  else st

/-- The outer loop body of `collectDirectionalLights`: only shadow-casting
lights enter the inner layer loop. -/
def collectLightStep (cameraLayers : List Layer) (st : List Light × List Light)
    (light : Light) : List Light × List Light :=
  if light.castShadows then cameraLayers.foldl (addLightFromLayer light) st else st

/-- Embeds `RenderAction#collectDirectionalLights`: the set and array are
cleared, then rebuilt from the shadow-casting `dirLights` found in some camera
layer's light set; the first component models `directionalLightsSet` (in
insertion order), the second `directionalLights`. The source's `allLights`
parameter is unused there and omitted here. -/
def collectDirectionalLights (cameraLayers : List Layer) (dirLights : List Light) :
    List Light × List Light :=
  dirLights.foldl (collectLightStep cameraLayers) ([], [])

/-- Whether some camera layer's light set has the light. -/
def inSomeLayer (cameraLayers : List Layer) (light : Light) : Bool :=
  cameraLayers.any (fun layer => decide (light ∈ layer.lightsSet))

/-- Whether a light would be kept by `collectDirectionalLights`. -/
def keepLight (cameraLayers : List Layer) (l : Light) : Bool :=
  l.castShadows && inSomeLayer cameraLayers l

/-- The `maxSubSteps` field of `RigidBodyComponentSystem` (initialised to 10,
never written elsewhere in the source). -/
def maxSubSteps : Nat := 10

/-- The `fixedTimeStep` field of `RigidBodyComponentSystem` (initialised to
1/60, never written elsewhere in the source). -/
def fixedTimeStep : ℚ := 1 / 60

/-- Configuration `onUpdate` reads: whether the wrapped dynamics world exposes
`setInternalTickCallback`, whether the gravity comparison found a change, and
the sizes of the `_triggers` / `_compounds` / `_kinematic` / `_dynamic`
arrays. -/
structure SysConfig where
  hasSetInternalTickCallback : Bool
  gravityChanged : Bool
  numTriggers : Nat
  numCompounds : Nat
  numKinematic : Nat
  numDynamic : Nat
deriving DecidableEq, Repr

/-- The calls `onUpdate` makes, in order. -/
inductive UpdCall
  | setGravity
  | updateTrigger
  | updateCompound
  | updateKinematic
  | stepSim (dt : ℚ) (maxSub : Nat) (fixed : ℚ)
  | updateDynamic
  | checkCollisions
deriving DecidableEq, Repr

/-- Embeds the call sequence of `RigidBodyComponentSystem#onUpdate`: optional
gravity update, transform updates, one `stepSimulation(dt, maxSubSteps,
fixedTimeStep)` call, dynamic-body updates, and the manual
`_checkForCollisions` call only when the world lacks
`setInternalTickCallback`. -/
def onUpdate (cfg : SysConfig) (dt : ℚ) : List UpdCall :=
  (if cfg.gravityChanged then [UpdCall.setGravity] else []) ++
  List.replicate cfg.numTriggers UpdCall.updateTrigger ++
  List.replicate cfg.numCompounds UpdCall.updateCompound ++
  List.replicate cfg.numKinematic UpdCall.updateKinematic ++
  [UpdCall.stepSim dt maxSubSteps fixedTimeStep] ++
  List.replicate cfg.numDynamic UpdCall.updateDynamic ++
  (if cfg.hasSetInternalTickCallback then [] else [UpdCall.checkCollisions])

/-- Whether a call is the `stepSimulation` call. -/
def isStepSim : UpdCall → Bool
  | UpdCall.stepSim _ _ _ => true
  | _ => false

/-- Result of the internal-tick feature detection in `onLibraryLoaded`. -/
structure TickSetup where
  registeredTickCallback : Bool
  warnedOutdated : Bool
deriving DecidableEq, Repr

/-- Embeds the feature-detection branch of `onLibraryLoaded`: register
`_checkForCollisions` as the internal tick callback when the world exposes
`setInternalTickCallback`, otherwise emit the outdated-ammo warning. -/
def onLibraryLoaded (hasSetInternalTickCallback : Bool) : TickSetup :=
  if hasSetInternalTickCallback then ⟨true, false⟩ else ⟨false, true⟩

/-- Optional native entry points of the wrapped library that the system
feature-checks. -/
structure AmmoCaps where
  allHitsRayResultCallback : Bool
  concreteContactResultCallback : Bool
deriving DecidableEq, Repr

/-- Calls into the wrapped library made by `raycastAll` and `_shapeTest`,
reduced to the guard and the uses it protects. -/
inductive AmmoCall
  | assertCheck (present : Bool)
  | newAllHitsCallback
  | rayTest
  | newConcreteCallback
  | contactTest
  | destroyObj
deriving DecidableEq, Repr

/-- Call skeleton of `raycastAll`: the `Debug.assert` on
`Ammo.AllHitsRayResultCallback` comes before any use of it. -/
def raycastAllCalls (caps : AmmoCaps) : List AmmoCall :=
  [AmmoCall.assertCheck caps.allHitsRayResultCallback, AmmoCall.newAllHitsCallback,
   AmmoCall.rayTest, AmmoCall.destroyObj]

/-- Call skeleton of `_shapeTest`: the `Debug.assert` on
`Ammo.ConcreteContactResultCallback` comes before any use of it. -/
def shapeTestCalls (caps : AmmoCaps) : List AmmoCall :=
  [AmmoCall.assertCheck caps.concreteContactResultCallback, AmmoCall.newConcreteCallback,
   AmmoCall.contactTest, AmmoCall.destroyObj]

/-- A `Vec3` with real components, for the shape-cast argument model. -/
structure Vec3R where
  x : ℝ
  y : ℝ
  z : ℝ

/-- `Vec3#distance`: the Euclidean distance between two points. -/
noncomputable def Vec3R.distance (a b : Vec3R) : ℝ :=
  Real.sqrt ((b.x - a.x) ^ 2 + (b.y - a.y) ^ 2 + (b.z - a.z) ^ 2)

/-- `Vec3#add`, componentwise. -/
noncomputable def Vec3R.add (a b : Vec3R) : Vec3R :=
  ⟨a.x + b.x, a.y + b.y, a.z + b.z⟩

/-- `Vec3#divScalar`, componentwise. -/
noncomputable def Vec3R.divScalar (a : Vec3R) (s : ℝ) : Vec3R :=
  ⟨a.x / s, a.y / s, a.z / s⟩

/-- Embeds the caller-visible argument mutation of `boxCast`: before testing,
`halfExtents.z += start.distance(end) / 2` (with the distance computed from
the original `start`), then `start.add(end).divScalar(2)` turns `start` into
the midpoint; `end` is never written. Returns the final values of the three
argument objects, the mutated `halfExtents` also being the box shape's
extents and the mutated `start` the position handed to `_shapeTest`. -/
noncomputable def boxCastArgs (halfExtents startv endv : Vec3R) : Vec3R × Vec3R × Vec3R :=
  let he := { halfExtents with z := halfExtents.z + Vec3R.distance startv endv / 2 }
  let startv' := (startv.add endv).divScalar 2
  (he, startv', endv)

/-- Embeds the caller-visible argument mutation of `sphereCast`: the capsule
height is `start.distance(end)` (from the original `start`), then
`start.add(end).divScalar(2)` turns `start` into the midpoint; `end` is never
written. Returns the final `start`, the final `end` and the capsule height. -/
noncomputable def sphereCastArgs (startv endv : Vec3R) : Vec3R × Vec3R × ℝ :=
  let height := Vec3R.distance startv endv
  let startv' := (startv.add endv).divScalar 2
  (startv', endv, height)

theorem lookupG_updateG_self (g : Nat) (e : CollisionEntry) (l : CollMap) :
    lookupG g (updateG g e l) = some e := by
  induction l with
  | nil => simp [updateG, lookupG]
  | cons p rest ih =>
    by_cases hk : p.1 = g
    · simp [updateG, lookupG, hk]
    · simp [updateG, lookupG, hk, ih]

theorem lookupG_mem {g : Nat} {e : CollisionEntry} {l : CollMap}
    (h : lookupG g l = some e) : (g, e) ∈ l := by
  induction l with
  | nil => simp [lookupG] at h
  | cons p rest ih =>
    rcases p with ⟨k, e'⟩
    by_cases hk : k = g
    · simp [lookupG, hk] at h
      subst hk
      rw [h]
      exact List.mem_cons_self _ _
    · simp [lookupG, hk] at h
      exact List.mem_cons_of_mem _ (ih h)

theorem mem_updateG {g : Nat} {e : CollisionEntry} {l : CollMap} {p : Nat × CollisionEntry}
    (h : p ∈ updateG g e l) : p = (g, e) ∨ p ∈ l := by
  induction l with
  | nil => simpa [updateG] using h
  | cons q rest ih =>
    by_cases hk : q.1 = g
    · simp [updateG, hk] at h
      rcases h with h | h
      · left; rw [h, ← hk]
      · right; exact List.mem_cons_of_mem _ h
    · simp [updateG, hk] at h
      rcases h with h | h
      · right; simp [h]
      · rcases ih h with h' | h'
        · exact Or.inl h'
        · exact Or.inr (List.mem_cons_of_mem _ h')

theorem storeCollision_fst (s : SysState) (e o : Entity) :
    (storeCollision s e o).1 = decide (o ∉ othersOf s.collisions e.guid) := by
  unfold storeCollision othersOf
  rcases h : lookupG e.guid s.collisions with _ | entry <;> simp [h]

theorem storeCollision_fst_true (s : SysState) (e o : Entity)
    (h : o ∉ othersOf s.collisions e.guid) : (storeCollision s e o).1 = true := by
  rw [storeCollision_fst]
  simpa using h

theorem storeCollision_collisions_lookup (s : SysState) (e o : Entity) :
    lookupG e.guid (storeCollision s e o).2.collisions =
      some ⟨entityOf s.collisions e.guid e,
            othersOf s.collisions e.guid ++
              (if o ∈ othersOf s.collisions e.guid then [] else [o])⟩ := by
  unfold storeCollision othersOf entityOf
  rcases h : lookupG e.guid s.collisions with _ | entry <;>
    simp [h, lookupG_updateG_self] <;>
    by_cases hm : o ∈ entry.others <;>
    simp [hm, lookupG_updateG_self]

theorem storeCollision_frame_lookup (s : SysState) (e o : Entity) :
    lookupG e.guid (storeCollision s e o).2.frameCollisions =
      some ⟨entityOf s.frameCollisions e.guid e, othersOf s.frameCollisions e.guid ++ [o]⟩ := by
  unfold storeCollision othersOf entityOf
  rcases h : lookupG e.guid s.frameCollisions with _ | fentry <;>
    simp [h, lookupG_updateG_self]

/-- Claim C5: the per-entity collision record is refreshed exactly once per
physics step. `_checkForCollisions` resets `frameCollisions` at the start of
every invocation (the result never depends on the incoming frame map, and with
no manifolds the frame map stays empty), `_storeCollision` appends the other
entity to the persistent entry (when it is not already there) and to the frame
entry (always) for the entity's guid, and it returns `true` exactly when the
other entity was not already in the persistent entry's `others` list. -/
theorem C5_store_and_reset (s : SysState) (f : CollMap) (ms : List Manifold) (e o : Entity) :
    checkForCollisions { s with frameCollisions := f } ms = checkForCollisions s ms ∧
    (checkForCollisions s []).1.frameCollisions = [] ∧
    ((storeCollision s e o).1 = true ↔ o ∉ othersOf s.collisions e.guid) ∧
    lookupG e.guid (storeCollision s e o).2.collisions =
      some ⟨entityOf s.collisions e.guid e,
            othersOf s.collisions e.guid ++
              (if o ∈ othersOf s.collisions e.guid then [] else [o])⟩ ∧
    lookupG e.guid (storeCollision s e o).2.frameCollisions =
      some ⟨entityOf s.frameCollisions e.guid e,
            othersOf s.frameCollisions e.guid ++ [o]⟩ := by
  refine ⟨rfl, rfl, ?_, storeCollision_collisions_lookup s e o,
    storeCollision_frame_lookup s e o⟩
  rw [storeCollision_fst]
  simp

theorem cleanCollList_nonempty (frame : CollMap) (l : CollMap) :
    ∀ p ∈ (cleanCollList frame l).1, p.2.others ≠ [] := by
  induction l with
  | nil => simp [cleanCollList]
  | cons q rest ih =>
    intro p hp
    rcases q with ⟨g, entry⟩
    simp only [cleanCollList] at hp
    by_cases he : (cleanOthers entry.entity (frameOthersOf frame g) entry.others).1.isEmpty
    · rw [if_pos he] at hp
      exact ih p hp
    · rw [if_neg he] at hp
      rcases List.mem_cons.mp hp with hp | hp
      · rw [hp]
        simpa [List.isEmpty_iff] using he
      · exact ih p hp

/-- Claim C9: after every `_checkForCollisions` step, every guid entry
remaining in the persistent `collisions` map has a non-empty `others` list
(`_cleanOldCollisions` runs last and deletes entries whose list became empty),
and `_storeCollision` preserves this invariant (it only creates an entry
together with adding an element to it). -/
theorem C9_collisions_nonempty (s s2 : SysState) (ms : List Manifold) (e o : Entity) :
    (∀ p ∈ (checkForCollisions s ms).1.collisions, p.2.others ≠ []) ∧
    ((∀ p ∈ s2.collisions, p.2.others ≠ []) →
      ∀ p ∈ (storeCollision s2 e o).2.collisions, p.2.others ≠ []) := by
  constructor
  · intro p hp
    have : (checkForCollisions s ms).1.collisions =
        (cleanCollList (processManifolds { s with frameCollisions := [] } ms).1.frameCollisions
          (processManifolds { s with frameCollisions := [] } ms).1.collisions).1 := rfl
    rw [this] at hp
    exact cleanCollList_nonempty _ _ p hp
  · intro hinv p hp
    unfold storeCollision at hp
    simp only at hp
    rcases mem_updateG hp with hp' | hp'
    · rcases h : lookupG e.guid s2.collisions with _ | entry
      · rw [h] at hp'
        simp [hp']
      · rw [h] at hp'
        have hne : entry.others ≠ [] := hinv _ (lookupG_mem h)
        by_cases hm : o ∈ entry.others
        · simp [hm] at hp'
          simpa [hp'] using hne
        · simp [hm] at hp'
          simp [hp']
    · exact hinv p hp'

theorem countP_isStepSim_replicate (n : Nat) (c : UpdCall) (h : isStepSim c = false) :
    (List.replicate n c).countP isStepSim = 0 := by
  induction n with
  | zero => rfl
  | succ k ih => simp [List.replicate_succ, List.countP_cons, ih, h]

/-- Claim C6: `onUpdate` invokes `stepSimulation` exactly once per frame, as
`stepSimulation(dt, maxSubSteps, fixedTimeStep)`, with `maxSubSteps = 10` and
`fixedTimeStep = 1/60`. -/
theorem C6_step_simulation_once (cfg : SysConfig) (dt : ℚ) :
    (onUpdate cfg dt).countP isStepSim = 1 ∧
    UpdCall.stepSim dt 10 (1 / 60) ∈ onUpdate cfg dt ∧
    maxSubSteps = 10 ∧ fixedTimeStep = 1 / 60 := by
  refine ⟨?_, ?_, rfl, rfl⟩
  · simp only [onUpdate, List.countP_append,
      countP_isStepSim_replicate _ UpdCall.updateTrigger rfl,
      countP_isStepSim_replicate _ UpdCall.updateCompound rfl,
      countP_isStepSim_replicate _ UpdCall.updateKinematic rfl,
      countP_isStepSim_replicate _ UpdCall.updateDynamic rfl]
    by_cases hg : cfg.gravityChanged <;>
      by_cases ht : cfg.hasSetInternalTickCallback <;>
      simp [hg, ht, List.countP_cons, isStepSim]
  · simp [onUpdate, maxSubSteps, fixedTimeStep]

/-- Claim C10: `boxCast` adds half the start-to-end distance to
`halfExtents.z` (and changes no other extent component), both `boxCast` and
`sphereCast` overwrite the caller's start vector with the midpoint
`(start + end) / 2`, and the end vector is left unchanged; `sphereCast` uses
the full distance as the capsule height. -/
theorem C10_cast_argument_mutation (he startv endv : Vec3R) :
    (boxCastArgs he startv endv).1 =
      ⟨he.x, he.y, he.z + Vec3R.distance startv endv / 2⟩ ∧
    (boxCastArgs he startv endv).2.1 =
      ⟨(startv.x + endv.x) / 2, (startv.y + endv.y) / 2, (startv.z + endv.z) / 2⟩ ∧
    (boxCastArgs he startv endv).2.2 = endv ∧
    (sphereCastArgs startv endv).1 =
      ⟨(startv.x + endv.x) / 2, (startv.y + endv.y) / 2, (startv.z + endv.z) / 2⟩ ∧
    (sphereCastArgs startv endv).2.1 = endv ∧
    (sphereCastArgs startv endv).2.2 = Vec3R.distance startv endv := by
  exact ⟨rfl, rfl, rfl, rfl, rfl, rfl⟩

theorem mem_guardedEv {f : Bool} {t : EvTarget} {n : EvName} {og : Nat} {ev : Ev}
    (h : ev ∈ guardedEv f t n og) : ev = ⟨t, n, og⟩ ∧ f = true := by
  by_cases hf : f = true
  · refine ⟨?_, hf⟩
    simpa [guardedEv, hf] using h
  · simp [guardedEv, hf] at h

theorem self_mem_guardedEv (t : EvTarget) (n : EvName) (og : Nat) {f : Bool}
    (hf : f = true) : (⟨t, n, og⟩ : Ev) ∈ guardedEv f t n og := by
  simp [guardedEv, hf]

theorem mem_contactEventsFor_start_coll (t o : Entity) (h : t.collision.isSome = true) :
    (⟨EvTarget.entityColl t.guid, EvName.collisionstart, o.guid⟩ : Ev) ∈
      contactEventsFor t o true := by
  unfold contactEventsFor
  simp only [List.mem_append, or_assoc]
  exact Or.inr (Or.inl (self_mem_guardedEv _ _ _ (by simp [h])))

theorem mem_contactEventsFor_start_rb (t o : Entity) (h : t.rigidbody.isSome = true) :
    (⟨EvTarget.entityRb t.guid, EvName.collisionstart, o.guid⟩ : Ev) ∈
      contactEventsFor t o true := by
  unfold contactEventsFor
  simp only [List.mem_append, or_assoc]
  exact Or.inr (Or.inr (Or.inr (self_mem_guardedEv _ _ _ (by simp [h]))))

theorem mem_contactEventsFor_contact_coll (t o : Entity) (b : Bool)
    (h : t.collision.isSome = true) :
    (⟨EvTarget.entityColl t.guid, EvName.contact, o.guid⟩ : Ev) ∈ contactEventsFor t o b := by
  unfold contactEventsFor
  simp only [List.mem_append, or_assoc]
  exact Or.inl (self_mem_guardedEv _ _ _ h)

theorem contactEventsFor_names {t o : Entity} {b : Bool} {ev : Ev}
    (h : ev ∈ contactEventsFor t o b) :
    ev.name = EvName.contact ∨ (b = true ∧ ev.name = EvName.collisionstart) := by
  unfold contactEventsFor at h
  simp only [List.mem_append, or_assoc] at h
  rcases h with h | h | h | h
  · exact Or.inl (by rw [(mem_guardedEv h).1])
  · rcases mem_guardedEv h with ⟨he, hg⟩
    exact Or.inr ⟨by simpa using (Bool.and_eq_true _ _).mp hg |>.2, by rw [he]⟩
  · exact Or.inl (by rw [(mem_guardedEv h).1])
  · rcases mem_guardedEv h with ⟨he, hg⟩
    exact Or.inr ⟨by simpa using (Bool.and_eq_true _ _).mp hg |>.2, by rw [he]⟩

theorem processTriggerPath_names {s : SysState} {e0 e1 : Entity} {f0 f1 : Bool} {ev : Ev}
    (h : ev ∈ (processTriggerPath s e0 e1 f0 f1).2) : ev.name = EvName.triggerenter := by
  unfold processTriggerPath at h
  simp only [List.mem_append, or_assoc] at h
  rcases h with h | h | h | h <;> rw [(mem_guardedEv h).1]

theorem mem_processContactPath_e0 (s : SysState) (e0 e1 : Entity) (numContacts : Nat)
    (ev : Ev) (hev : hasContactEvent e0 = true)
    (h : ev ∈ contactEventsFor e0 e1 (storeCollision s e0 e1).1) :
    ev ∈ (processContactPath s e0 e1 numContacts).2 := by
  unfold processContactPath
  simp only [hev, Bool.or_true, Bool.true_or, if_true, List.mem_append, or_assoc]
  exact Or.inr (Or.inl h)

theorem mem_checkForCollisions_head (s : SysState) (m : Manifold) (rest : List Manifold)
    (ev : Ev) (h : ev ∈ (processManifold { s with frameCollisions := [] } m).2) :
    ev ∈ (checkForCollisions s (m :: rest)).2 := by
  unfold checkForCollisions processManifolds
  simp only [List.mem_append, or_assoc]
  exact Or.inl h

/-- Claim C1: an entity pair observed in the current step but absent from the
previous step's contact set fires `collisionstart`: `_storeCollision` returns
`true` for such a pair, and `_checkForCollisions` fires `collisionstart` on
the listening entity's collision and rigidbody components. -/
theorem C1_collisionstart (s : SysState) (e0 e1 : Entity) (n : Nat) (rest : List Manifold)
    (hn : 0 < n)
    (habs : e1 ∉ othersOf s.collisions e0.guid)
    (hev : hasContactEvent e0 = true)
    (hc : e0.collision.isSome = true)
    (hr : e0.rigidbody.isSome = true) :
    (storeCollision { s with frameCollisions := [] } e0 e1).1 = true ∧
    (⟨EvTarget.entityColl e0.guid, EvName.collisionstart, e1.guid⟩ : Ev) ∈
      (checkForCollisions s ((⟨some e0, some e1, false, false, n⟩ : Manifold) :: rest)).2 ∧
    (⟨EvTarget.entityRb e0.guid, EvName.collisionstart, e1.guid⟩ : Ev) ∈
      (checkForCollisions s ((⟨some e0, some e1, false, false, n⟩ : Manifold) :: rest)).2 := by
  have hstore : (storeCollision { s with frameCollisions := [] } e0 e1).1 = true :=
    storeCollision_fst_true _ e0 e1 habs
  have hman : processManifold { s with frameCollisions := [] }
      (⟨some e0, some e1, false, false, n⟩ : Manifold) =
      processContactPath { s with frameCollisions := [] } e0 e1 n := by
    simp [processManifold, hn]
  refine ⟨hstore, ?_, ?_⟩ <;> apply mem_checkForCollisions_head <;> rw [hman]
  · exact mem_processContactPath_e0 _ e0 e1 n _ hev
      (by rw [hstore]; exact mem_contactEventsFor_start_coll e0 e1 hc)
  · exact mem_processContactPath_e0 _ e0 e1 n _ hev
      (by rw [hstore]; exact mem_contactEventsFor_start_rb e0 e1 hr)

/-- A component listening to every event, for concrete witnesses. -/
def exListenAll : CompEvents := ⟨true, true, true, true, true⟩

/-- A concrete non-trigger entity with both components. -/
def exEntityA : Entity := ⟨0, some exListenAll, some exListenAll, false⟩

/-- A concrete non-trigger entity with both components. -/
def exEntityB : Entity := ⟨1, some exListenAll, some exListenAll, false⟩

/-- The initial system state: empty maps, no global listener. -/
def exEmptyState : SysState := ⟨[], [], false⟩

/-- Witness for C1: the concrete fresh pair (A, B) with one contact point
satisfies every hypothesis and fires both `collisionstart` events. -/
theorem C1_collisionstart_witness :
    0 < 1 ∧ exEntityB ∉ othersOf exEmptyState.collisions exEntityA.guid ∧
    hasContactEvent exEntityA = true ∧ exEntityA.collision.isSome = true ∧
    exEntityA.rigidbody.isSome = true ∧
    ((storeCollision { exEmptyState with frameCollisions := [] } exEntityA exEntityB).1 = true ∧
     (⟨EvTarget.entityColl exEntityA.guid, EvName.collisionstart, exEntityB.guid⟩ : Ev) ∈
       (checkForCollisions exEmptyState
         ((⟨some exEntityA, some exEntityB, false, false, 1⟩ : Manifold) :: [])).2 ∧
     (⟨EvTarget.entityRb exEntityA.guid, EvName.collisionstart, exEntityB.guid⟩ : Ev) ∈
       (checkForCollisions exEmptyState
         ((⟨some exEntityA, some exEntityB, false, false, 1⟩ : Manifold) :: [])).2) :=
  ⟨by decide, by decide, by decide, by decide, by decide,
   C1_collisionstart exEmptyState exEntityA exEntityB 1 []
     (by decide) (by decide) (by decide) (by decide) (by decide)⟩

theorem mem_cleanOthers_fst (entity : Entity) (fo others : List Entity) (x : Entity) :
    x ∈ (cleanOthers entity fo others).1 ↔ x ∈ others ∧ x ∈ fo := by
  induction others with
  | nil => simp [cleanOthers]
  | cons o rest ih =>
    by_cases hm : o ∈ fo
    · simp only [cleanOthers, if_pos hm, List.mem_cons, ih]
      constructor
      · rintro (rfl | ⟨hx, hfo⟩)
        · exact ⟨Or.inl rfl, hm⟩
        · exact ⟨Or.inr hx, hfo⟩
      · rintro ⟨rfl | hx, hfo⟩
        · exact Or.inl rfl
        · exact Or.inr ⟨hx, hfo⟩
    · simp only [cleanOthers, if_neg hm, List.mem_cons, ih]
      constructor
      · rintro ⟨hx, hfo⟩
        exact ⟨Or.inr hx, hfo⟩
      · rintro ⟨rfl | hx, hfo⟩
        · exact absurd hfo hm
        · exact ⟨hx, hfo⟩

theorem cleanOthers_fires {entity : Entity} {fo others : List Entity} {o : Entity}
    (ho : o ∈ others) (hf : o ∉ fo) {ev : Ev} (hev : ev ∈ leaveEvents entity o) :
    ev ∈ (cleanOthers entity fo others).2 := by
  induction others with
  | nil => cases ho
  | cons hd rest ih =>
    rcases List.mem_cons.mp ho with rfl | hmem
    · simp only [cleanOthers, if_neg hf, List.mem_append]
      exact Or.inr hev
    · by_cases hm : hd ∈ fo
      · simp only [cleanOthers, if_pos hm]
        exact ih hmem
      · simp only [cleanOthers, if_neg hm, List.mem_append]
        exact Or.inl (ih hmem)

theorem cleanCollList_fires {frame : CollMap} {l : CollMap} {g : Nat}
    {entry : CollisionEntry} (hmem : (g, entry) ∈ l) {ev : Ev}
    (hev : ev ∈ (cleanOthers entry.entity (frameOthersOf frame g) entry.others).2) :
    ev ∈ (cleanCollList frame l).2 := by
  induction l with
  | nil => cases hmem
  | cons q rest ih =>
    rcases List.mem_cons.mp hmem with rfl | h
    · simp only [cleanCollList, List.mem_append]
      exact Or.inl hev
    · rcases q with ⟨k, e⟩
      simp only [cleanCollList, List.mem_append]
      exact Or.inr (ih h)

theorem lookupG_of_not_mem {g : Nat} {l : CollMap} (h : g ∉ l.map Prod.fst) :
    lookupG g l = none := by
  induction l with
  | nil => rfl
  | cons q rest ih =>
    rcases q with ⟨k, e⟩
    simp only [List.map_cons, List.mem_cons] at h
    push_neg at h
    have hk : ¬k = g := fun hkg => h.1 hkg.symm
    simp [lookupG, hk, ih h.2]

theorem cleanCollList_keys {frame : CollMap} (l : CollMap) {g : Nat}
    (h : g ∈ (cleanCollList frame l).1.map Prod.fst) : g ∈ l.map Prod.fst := by
  induction l with
  | nil => simpa [cleanCollList] using h
  | cons q rest ih =>
    rcases q with ⟨k, e⟩
    by_cases hke : (cleanOthers e.entity (frameOthersOf frame k) e.others).1.isEmpty
    · simp only [cleanCollList, if_pos hke] at h
      exact List.mem_cons_of_mem _ (ih h)
    · simp only [cleanCollList, if_neg hke, List.map_cons, List.mem_cons] at h
      rcases h with h | h
      · simp [h]
      · exact List.mem_cons_of_mem _ (ih h)

theorem cleanCollList_lookup {frame : CollMap} {l : CollMap} {g : Nat}
    {entry : CollisionEntry}
    (hnd : (l.map Prod.fst).Nodup) (hl : lookupG g l = some entry) :
    lookupG g (cleanCollList frame l).1 =
      (if (cleanOthers entry.entity (frameOthersOf frame g) entry.others).1.isEmpty then none
       else some ⟨entry.entity,
         (cleanOthers entry.entity (frameOthersOf frame g) entry.others).1⟩) := by
  induction l with
  | nil => simp [lookupG] at hl
  | cons q rest ih =>
    rcases q with ⟨k, e⟩
    simp only [List.map_cons, List.nodup_cons] at hnd
    by_cases hk : k = g
    · subst hk
      simp only [lookupG, if_pos rfl] at hl
      have he : e = entry := by injection hl
      subst he
      by_cases hke : (cleanOthers e.entity (frameOthersOf frame k) e.others).1.isEmpty
      · rw [if_pos hke]
        simp only [cleanCollList, if_pos hke]
        apply lookupG_of_not_mem
        intro hg
        exact hnd.1 (cleanCollList_keys rest hg)
      · rw [if_neg hke]
        simp [cleanCollList, hke, lookupG]
    · simp only [lookupG, if_neg hk] at hl
      have hres := ih hnd.2 hl
      by_cases hke : (cleanOthers e.entity (frameOthersOf frame k) e.others).1.isEmpty
      · simpa [cleanCollList, hke] using hres
      · simpa [cleanCollList, hke, lookupG, hk] using hres

/-- Claim C2: an entity pair present in the previous step's contact set but
absent from the current step's frame collisions fires `collisionend` on the
entity's rigidbody and collision components (for non-trigger entities), and
`_cleanOldCollisions` removes the pair from the persistent contact set. -/
theorem C2_collisionend (s : SysState) (guid : Nat) (entry : CollisionEntry) (other : Entity)
    (hnd : (s.collisions.map Prod.fst).Nodup)
    (hl : lookupG guid s.collisions = some entry)
    (ho : other ∈ entry.others)
    (hf : other ∉ frameOthersOf s.frameCollisions guid)
    (ht : entry.entity.trigger = false)
    (hot : other.trigger = false)
    (hrb : entry.entity.rigidbody.isSome = true)
    (hcl : entry.entity.collision.isSome = true) :
    (⟨EvTarget.entityRb entry.entity.guid, EvName.collisionend, other.guid⟩ : Ev) ∈
      (cleanOldCollisions s).2 ∧
    (⟨EvTarget.entityColl entry.entity.guid, EvName.collisionend, other.guid⟩ : Ev) ∈
      (cleanOldCollisions s).2 ∧
    ∀ e', lookupG guid (cleanOldCollisions s).1.collisions = some e' →
      other ∉ e'.others := by
  have hmem := lookupG_mem hl
  have hev1 : (⟨EvTarget.entityRb entry.entity.guid, EvName.collisionend, other.guid⟩ : Ev) ∈
      leaveEvents entry.entity other := by
    simp [leaveEvents, ht, hot, guardedEv, hrb]
  have hev2 : (⟨EvTarget.entityColl entry.entity.guid, EvName.collisionend, other.guid⟩ : Ev) ∈
      leaveEvents entry.entity other := by
    simp [leaveEvents, ht, hot, guardedEv, hcl]
  refine ⟨cleanCollList_fires hmem (cleanOthers_fires ho hf hev1),
          cleanCollList_fires hmem (cleanOthers_fires ho hf hev2), ?_⟩
  intro e' he'
  have hres : lookupG guid (cleanOldCollisions s).1.collisions =
      (if (cleanOthers entry.entity (frameOthersOf s.frameCollisions guid)
            entry.others).1.isEmpty then none
       else some ⟨entry.entity,
         (cleanOthers entry.entity (frameOthersOf s.frameCollisions guid) entry.others).1⟩) :=
    cleanCollList_lookup hnd hl
  rw [hres] at he'
  by_cases hke : (cleanOthers entry.entity (frameOthersOf s.frameCollisions guid)
      entry.others).1.isEmpty
  · rw [if_pos hke] at he'
    cases he'
  · rw [if_neg hke] at he'
    have he'' : e' = ⟨entry.entity,
        (cleanOthers entry.entity (frameOthersOf s.frameCollisions guid) entry.others).1⟩ := by
      injection he' with h
      exact h.symm
    rw [he'']
    intro hcontra
    have := (mem_cleanOthers_fst entry.entity _ entry.others other).mp hcontra
    exact hf this.2

/-- Witness for C2: the concrete pair (A, B) recorded previously and absent
from the frame collisions fires both `collisionend` events and is removed. -/
theorem C2_collisionend_witness :
    (([(0, (⟨exEntityA, [exEntityB]⟩ : CollisionEntry))].map Prod.fst).Nodup) ∧
    lookupG 0 [(0, (⟨exEntityA, [exEntityB]⟩ : CollisionEntry))] =
      some ⟨exEntityA, [exEntityB]⟩ ∧
    exEntityB ∈ (⟨exEntityA, [exEntityB]⟩ : CollisionEntry).others ∧
    exEntityB ∉ frameOthersOf ([] : CollMap) 0 ∧
    ((⟨EvTarget.entityRb exEntityA.guid, EvName.collisionend, exEntityB.guid⟩ : Ev) ∈
      (cleanOldCollisions ⟨[(0, ⟨exEntityA, [exEntityB]⟩)], [], false⟩).2 ∧
     (⟨EvTarget.entityColl exEntityA.guid, EvName.collisionend, exEntityB.guid⟩ : Ev) ∈
      (cleanOldCollisions ⟨[(0, ⟨exEntityA, [exEntityB]⟩)], [], false⟩).2 ∧
     ∀ e', lookupG 0 (cleanOldCollisions
        (⟨[(0, ⟨exEntityA, [exEntityB]⟩)], [], false⟩ : SysState)).1.collisions = some e' →
       exEntityB ∉ e'.others) :=
  ⟨by decide, by decide, by decide, by decide,
   C2_collisionend ⟨[(0, ⟨exEntityA, [exEntityB]⟩)], [], false⟩ 0 ⟨exEntityA, [exEntityB]⟩
     exEntityB (by decide) (by decide) (by decide) (by decide)
     (by decide) (by decide) (by decide) (by decide)⟩

theorem lookupG_updateG_other {g g' : Nat} (hne : g ≠ g') (e : CollisionEntry) (l : CollMap) :
    lookupG g' (updateG g e l) = lookupG g' l := by
  induction l with
  | nil => simp [updateG, lookupG, hne]
  | cons q rest ih =>
    rcases q with ⟨k, e'⟩
    by_cases hk : k = g
    · subst hk
      simp [updateG, lookupG, hne]
    · simp [updateG, lookupG, hk, ih]

theorem othersOf_storeCollision_other (s : SysState) (e o : Entity) {g' : Nat}
    (hne : e.guid ≠ g') :
    othersOf (storeCollision s e o).2.collisions g' = othersOf s.collisions g' := by
  unfold storeCollision othersOf
  simp only
  rw [lookupG_updateG_other hne]

theorem storeCollision_fst_false (s : SysState) (e o : Entity)
    (h : o ∈ othersOf s.collisions e.guid) : (storeCollision s e o).1 = false := by
  rw [storeCollision_fst]
  simpa using h

theorem processContactPath_steady_names {s : SysState} {e0 e1 : Entity} {n : Nat}
    (hg : e0.guid ≠ e1.guid)
    (hmem0 : e1 ∈ othersOf s.collisions e0.guid)
    (hmem1 : e0 ∈ othersOf s.collisions e1.guid) :
    ∀ ev ∈ (processContactPath s e0 e1 n).2, ev.name = EvName.contact := by
  intro ev hev
  have h0 : (storeCollision s e0 e1).1 = false := storeCollision_fst_false s e0 e1 hmem0
  have h1 : (storeCollision (storeCollision s e0 e1).2 e1 e0).1 = false := by
    apply storeCollision_fst_false
    rw [othersOf_storeCollision_other s e0 e1 hg]
    exact hmem1
  have h1' : (storeCollision s e1 e0).1 = false := storeCollision_fst_false s e1 e0 hmem1
  unfold processContactPath at hev
  by_cases hcond : (s.sysContactEvent || hasContactEvent e0 || hasContactEvent e1) = true
  · rw [if_pos hcond] at hev
    simp only [List.mem_append, or_assoc] at hev
    rcases hev with hev | hev | hev
    · by_cases hgl : s.sysContactEvent = true
      · rw [if_pos hgl] at hev
        rw [List.eq_of_mem_replicate hev]
      · rw [if_neg hgl] at hev
        cases hev
    · by_cases he0 : hasContactEvent e0 = true
      · rw [if_pos he0] at hev
        rcases contactEventsFor_names (by simpa [h0] using hev) with h | h
        · exact h
        · exact absurd h.1 (by simp)
      · rw [if_neg he0] at hev
        cases hev
    · by_cases he1 : hasContactEvent e1 = true
      · rw [if_pos he1] at hev
        by_cases he0 : hasContactEvent e0 = true
        · simp only [he0, if_pos] at hev
          rcases contactEventsFor_names (by simpa [h1] using hev) with h | h
          · exact h
          · exact absurd h.1 (by simp)
        · simp only [he0] at hev
          rcases contactEventsFor_names (by simpa [h1'] using hev) with h | h
          · exact h
          · exact absurd h.1 (by simp)
      · rw [if_neg he1] at hev
        cases hev
  · rw [if_neg hcond] at hev
    cases hev

theorem mem_processContactPath_e1 (s : SysState) (e0 e1 : Entity) (numContacts : Nat)
    (ev : Ev) (hev0 : hasContactEvent e0 = true) (hev1 : hasContactEvent e1 = true)
    (h : ev ∈ contactEventsFor e1 e0 (storeCollision (storeCollision s e0 e1).2 e1 e0).1) :
    ev ∈ (processContactPath s e0 e1 numContacts).2 := by
  unfold processContactPath
  simp only [hev0, hev1, Bool.or_true, Bool.true_or, if_true, List.mem_append, or_assoc]
  exact Or.inr (Or.inr (by simpa [hev0, hev1] using h))

/-- Claim C3: an entity pair present in both the previous and the current
step's contact sets emits per-step `contact` notifications on both listening
entities, and no `collisionstart` and no `collisionend` event is fired in
that step (the start event is guarded by `_storeCollision` returning `true`,
which is false for an already-recorded pair, and the pair survives
`_cleanOldCollisions`). -/
theorem C3_steady_contact (e0 e1 : Entity) (n : Nat) (f : CollMap) (g : Bool)
    (hg : e0.guid ≠ e1.guid) (hn : 0 < n)
    (hev0 : hasContactEvent e0 = true) (hev1 : hasContactEvent e1 = true)
    (hc0 : e0.collision.isSome = true) (hc1 : e1.collision.isSome = true) :
    (⟨EvTarget.entityColl e0.guid, EvName.contact, e1.guid⟩ : Ev) ∈
      (checkForCollisions ⟨[(e0.guid, ⟨e0, [e1]⟩), (e1.guid, ⟨e1, [e0]⟩)], f, g⟩
        [⟨some e0, some e1, false, false, n⟩]).2 ∧
    (⟨EvTarget.entityColl e1.guid, EvName.contact, e0.guid⟩ : Ev) ∈
      (checkForCollisions ⟨[(e0.guid, ⟨e0, [e1]⟩), (e1.guid, ⟨e1, [e0]⟩)], f, g⟩
        [⟨some e0, some e1, false, false, n⟩]).2 ∧
    ∀ ev ∈ (checkForCollisions ⟨[(e0.guid, ⟨e0, [e1]⟩), (e1.guid, ⟨e1, [e0]⟩)], f, g⟩
        [⟨some e0, some e1, false, false, n⟩]).2,
      ev.name ≠ EvName.collisionstart ∧ ev.name ≠ EvName.collisionend := by
  have hman : processManifold ⟨[(e0.guid, ⟨e0, [e1]⟩), (e1.guid, ⟨e1, [e0]⟩)], [], g⟩
      (⟨some e0, some e1, false, false, n⟩ : Manifold) =
      processContactPath ⟨[(e0.guid, ⟨e0, [e1]⟩), (e1.guid, ⟨e1, [e0]⟩)], [], g⟩ e0 e1 n := by
    simp [processManifold, hn]
  refine ⟨?_, ?_, ?_⟩
  · apply mem_checkForCollisions_head
    rw [hman]
    exact mem_processContactPath_e0 _ e0 e1 n _ hev0
      (mem_contactEventsFor_contact_coll e0 e1 _ hc0)
  · apply mem_checkForCollisions_head
    rw [hman]
    exact mem_processContactPath_e1 _ e0 e1 n _ hev0 hev1
      (mem_contactEventsFor_contact_coll e1 e0 _ hc1)
  · intro ev hev
    have hstate : (processManifolds ⟨[(e0.guid, ⟨e0, [e1]⟩), (e1.guid, ⟨e1, [e0]⟩)], [], g⟩
        [⟨some e0, some e1, false, false, n⟩]).1 =
        ⟨[(e0.guid, ⟨e0, [e1]⟩), (e1.guid, ⟨e1, [e0]⟩)],
         [(e0.guid, ⟨e0, [e1]⟩), (e1.guid, ⟨e1, [e0]⟩)], g⟩ := by
      simp [processManifolds, processManifold, processContactPath, storeCollision, othersOf,
            lookupG, updateG, hn, hev0, hev1, hg, Ne.symm hg]
    have hevs : (checkForCollisions ⟨[(e0.guid, ⟨e0, [e1]⟩), (e1.guid, ⟨e1, [e0]⟩)], f, g⟩
        [⟨some e0, some e1, false, false, n⟩]).2 =
        (processManifolds ⟨[(e0.guid, ⟨e0, [e1]⟩), (e1.guid, ⟨e1, [e0]⟩)], [], g⟩
          [⟨some e0, some e1, false, false, n⟩]).2 ++
        (cleanOldCollisions
          (processManifolds ⟨[(e0.guid, ⟨e0, [e1]⟩), (e1.guid, ⟨e1, [e0]⟩)], [], g⟩
            [⟨some e0, some e1, false, false, n⟩]).1).2 := rfl
    rw [hevs, hstate] at hev
    have hclean : (cleanOldCollisions
        (⟨[(e0.guid, ⟨e0, [e1]⟩), (e1.guid, ⟨e1, [e0]⟩)],
          [(e0.guid, ⟨e0, [e1]⟩), (e1.guid, ⟨e1, [e0]⟩)], g⟩ : SysState)).2 = [] := by
      simp [cleanOldCollisions, cleanCollList, cleanOthers, frameOthersOf, lookupG,
            hg, Ne.symm hg]
    rw [hclean, List.append_nil] at hev
    have hevp : (processManifolds ⟨[(e0.guid, ⟨e0, [e1]⟩), (e1.guid, ⟨e1, [e0]⟩)], [], g⟩
        [⟨some e0, some e1, false, false, n⟩]).2 =
        (processContactPath ⟨[(e0.guid, ⟨e0, [e1]⟩), (e1.guid, ⟨e1, [e0]⟩)], [], g⟩
          e0 e1 n).2 := by
      simp [processManifolds, hman]
    rw [hevp] at hev
    have hname := processContactPath_steady_names hg
      (by simp [othersOf, lookupG]) (by simp [othersOf, lookupG, hg, Ne.symm hg]) ev hev
    rw [hname]
    exact ⟨by simp, by simp⟩

/-- Witness for C3: the concrete already-recorded pair (A, B) with one contact
point emits `contact` on both entities and no start or end event. -/
theorem C3_steady_contact_witness :
    exEntityA.guid ≠ exEntityB.guid ∧ 0 < 1 ∧
    hasContactEvent exEntityA = true ∧ hasContactEvent exEntityB = true ∧
    exEntityA.collision.isSome = true ∧ exEntityB.collision.isSome = true ∧
    ((⟨EvTarget.entityColl exEntityA.guid, EvName.contact, exEntityB.guid⟩ : Ev) ∈
      (checkForCollisions ⟨[(exEntityA.guid, ⟨exEntityA, [exEntityB]⟩),
          (exEntityB.guid, ⟨exEntityB, [exEntityA]⟩)], [], true⟩
        [⟨some exEntityA, some exEntityB, false, false, 1⟩]).2 ∧
     (⟨EvTarget.entityColl exEntityB.guid, EvName.contact, exEntityA.guid⟩ : Ev) ∈
      (checkForCollisions ⟨[(exEntityA.guid, ⟨exEntityA, [exEntityB]⟩),
          (exEntityB.guid, ⟨exEntityB, [exEntityA]⟩)], [], true⟩
        [⟨some exEntityA, some exEntityB, false, false, 1⟩]).2 ∧
     ∀ ev ∈ (checkForCollisions ⟨[(exEntityA.guid, ⟨exEntityA, [exEntityB]⟩),
          (exEntityB.guid, ⟨exEntityB, [exEntityA]⟩)], [], true⟩
        [⟨some exEntityA, some exEntityB, false, false, 1⟩]).2,
      ev.name ≠ EvName.collisionstart ∧ ev.name ≠ EvName.collisionend) :=
  ⟨by decide, by decide, by decide, by decide, by decide, by decide,
   C3_steady_contact exEntityA exEntityB 1 [] true
     (by decide) (by decide) (by decide) (by decide) (by decide) (by decide)⟩

/-- Claim C4: for a manifold in which a body carries the no-response (trigger)
flag, the trigger branch fires no `contact` / `collisionstart` /
`collisionend` event (every event it fires is `triggerenter`), a new pair
(via `_storeCollision`) fires `triggerenter` on the listening entity, and in
`_cleanOldCollisions` a vanished pair of a trigger entity fires
`triggerleave` (every leave event of a trigger entity is `triggerleave`). -/
theorem C4_trigger_classification (s s2 : SysState) (e0 e1 : Entity) (f0 f1 : Bool)
    (guid : Nat) (entry : CollisionEntry) (other : Entity)
    (hnew : e1 ∉ othersOf s.collisions e0.guid)
    (hevt : compTriggerEvents e0.collision = true)
    (h3 : entry.entity.trigger = true)
    (h4 : entry.entity.collision.isSome = true)
    (h5 : lookupG guid s2.collisions = some entry)
    (h6 : other ∈ entry.others)
    (h7 : other ∉ frameOthersOf s2.frameCollisions guid) :
    (∀ ev ∈ (processTriggerPath s e0 e1 f0 f1).2, ev.name = EvName.triggerenter) ∧
    (⟨EvTarget.entityColl e0.guid, EvName.triggerenter, e1.guid⟩ : Ev) ∈
      (processTriggerPath s e0 e1 true false).2 ∧
    (⟨EvTarget.entityColl entry.entity.guid, EvName.triggerleave, other.guid⟩ : Ev) ∈
      (cleanOldCollisions s2).2 ∧
    (∀ ev ∈ leaveEvents entry.entity other, ev.name = EvName.triggerleave) := by
  refine ⟨?_, ?_, ?_, ?_⟩
  · intro ev hev
    exact processTriggerPath_names hev
  · unfold processTriggerPath
    simp only [List.mem_append, or_assoc]
    left
    apply self_mem_guardedEv
    simp [hevt, storeCollision_fst_true s e0 e1 hnew]
  · have hevLeave : (⟨EvTarget.entityColl entry.entity.guid, EvName.triggerleave,
        other.guid⟩ : Ev) ∈ leaveEvents entry.entity other := by
      simp [leaveEvents, h3, guardedEv, h4]
    exact cleanCollList_fires (lookupG_mem h5) (cleanOthers_fires h6 h7 hevLeave)
  · intro ev hev
    unfold leaveEvents at hev
    rw [if_pos h3] at hev
    rcases List.mem_append.mp hev with h | h <;> rw [(mem_guardedEv h).1]

/-- A concrete trigger entity with both components. -/
def exTrigger : Entity := ⟨2, some exListenAll, some exListenAll, true⟩

/-- Witness for C4: a fresh trigger pair fires `triggerenter`, and the
vanished trigger pair fires `triggerleave` during cleanup. -/
theorem C4_trigger_classification_witness :
    exEntityB ∉ othersOf exEmptyState.collisions exTrigger.guid ∧
    compTriggerEvents exTrigger.collision = true ∧
    exTrigger.trigger = true ∧ exTrigger.collision.isSome = true ∧
    lookupG 2 [(2, (⟨exTrigger, [exEntityB]⟩ : CollisionEntry))] =
      some ⟨exTrigger, [exEntityB]⟩ ∧
    exEntityB ∈ (⟨exTrigger, [exEntityB]⟩ : CollisionEntry).others ∧
    exEntityB ∉ frameOthersOf ([] : CollMap) 2 ∧
    ((∀ ev ∈ (processTriggerPath exEmptyState exTrigger exEntityB true false).2,
        ev.name = EvName.triggerenter) ∧
     (⟨EvTarget.entityColl exTrigger.guid, EvName.triggerenter, exEntityB.guid⟩ : Ev) ∈
       (processTriggerPath exEmptyState exTrigger exEntityB true false).2 ∧
     (⟨EvTarget.entityColl exTrigger.guid, EvName.triggerleave, exEntityB.guid⟩ : Ev) ∈
       (cleanOldCollisions ⟨[(2, ⟨exTrigger, [exEntityB]⟩)], [], false⟩).2 ∧
     (∀ ev ∈ leaveEvents exTrigger exEntityB, ev.name = EvName.triggerleave)) :=
  ⟨by decide, by decide, by decide, by decide, by decide, by decide, by decide,
   C4_trigger_classification exEmptyState ⟨[(2, ⟨exTrigger, [exEntityB]⟩)], [], false⟩
     exTrigger exEntityB true false 2 ⟨exTrigger, [exEntityB]⟩ exEntityB
     (by decide) (by decide) (by decide) (by decide) (by decide) (by decide) (by decide)⟩

/-- Claim C7: failure handling is feature detection plus assertion guards.
`onUpdate` calls `_checkForCollisions` manually exactly when the world lacks
`setInternalTickCallback`, and then only after the `stepSimulation` call;
`onLibraryLoaded` registers the internal tick callback exactly when the
capability is present (warning otherwise); `raycastAll` and `_shapeTest`
assert the optional native entry points before using them. -/
theorem C7_feature_detection (cfg cfg2 : SysConfig) (dt : ℚ) (hasTick : Bool)
    (caps : AmmoCaps) (h : cfg.hasSetInternalTickCallback = false) :
    (UpdCall.checkCollisions ∈ onUpdate cfg2 dt ↔
      cfg2.hasSetInternalTickCallback = false) ∧
    (onLibraryLoaded hasTick).registeredTickCallback = hasTick ∧
    (onLibraryLoaded hasTick).warnedOutdated = !hasTick ∧
    (∃ pre post, onUpdate cfg dt =
        pre ++ [UpdCall.stepSim dt maxSubSteps fixedTimeStep] ++ post ∧
      UpdCall.checkCollisions ∈ post ∧ UpdCall.checkCollisions ∉ pre) ∧
    (raycastAllCalls caps).head? =
      some (AmmoCall.assertCheck caps.allHitsRayResultCallback) ∧
    (shapeTestCalls caps).head? =
      some (AmmoCall.assertCheck caps.concreteContactResultCallback) := by
  refine ⟨?_, ?_, ?_, ?_, rfl, rfl⟩
  · constructor
    · intro hm
      by_cases ht : cfg2.hasSetInternalTickCallback
      · exfalso
        by_cases hgrav : cfg2.gravityChanged <;>
          simp [onUpdate, ht, hgrav, List.mem_replicate] at hm
      · simpa using ht
    · intro ht
      simp [onUpdate, ht]
  · cases hasTick <;> rfl
  · cases hasTick <;> rfl
  · refine ⟨(if cfg.gravityChanged then [UpdCall.setGravity] else []) ++
      List.replicate cfg.numTriggers UpdCall.updateTrigger ++
      List.replicate cfg.numCompounds UpdCall.updateCompound ++
      List.replicate cfg.numKinematic UpdCall.updateKinematic,
      List.replicate cfg.numDynamic UpdCall.updateDynamic ++ [UpdCall.checkCollisions],
      ?_, ?_, ?_⟩
    · simp [onUpdate, h]
    · simp
    · by_cases hgrav : cfg.gravityChanged <;> simp [hgrav, List.mem_replicate]

/-- Witness for C7 at a concrete configuration without the internal tick
capability. -/
theorem C7_feature_detection_witness :
    (⟨false, false, 0, 0, 0, 0⟩ : SysConfig).hasSetInternalTickCallback = false ∧
    ((UpdCall.checkCollisions ∈ onUpdate ⟨false, false, 0, 0, 0, 0⟩ 1 ↔
        (⟨false, false, 0, 0, 0, 0⟩ : SysConfig).hasSetInternalTickCallback = false) ∧
     (onLibraryLoaded true).registeredTickCallback = true ∧
     (onLibraryLoaded true).warnedOutdated = !true ∧
     (∃ pre post, onUpdate ⟨false, false, 0, 0, 0, 0⟩ 1 =
         pre ++ [UpdCall.stepSim 1 maxSubSteps fixedTimeStep] ++ post ∧
       UpdCall.checkCollisions ∈ post ∧ UpdCall.checkCollisions ∉ pre) ∧
     (raycastAllCalls ⟨true, true⟩).head? = some (AmmoCall.assertCheck true) ∧
     (shapeTestCalls ⟨true, true⟩).head? = some (AmmoCall.assertCheck true)) :=
  ⟨by decide,
   C7_feature_detection ⟨false, false, 0, 0, 0, 0⟩ ⟨false, false, 0, 0, 0, 0⟩ 1 true
     ⟨true, true⟩ (by decide)⟩

theorem foldAdd_of_mem (light : Light) (layers : List Layer) (st : List Light × List Light)
    (h : light ∈ st.1) : layers.foldl (addLightFromLayer light) st = st := by
  induction layers generalizing st with
  | nil => rfl
  | cons l ls ih =>
    have hstep : addLightFromLayer light st l = st := by
      unfold addLightFromLayer
      by_cases hl : light ∈ l.lightsSet <;> simp [hl, h]
    rw [List.foldl_cons, hstep]
    exact ih st h

theorem foldAdd_spec (light : Light) (layers : List Layer) (st : List Light × List Light) :
    layers.foldl (addLightFromLayer light) st =
      if light ∈ st.1 then st
      else if inSomeLayer layers light then (st.1 ++ [light], st.2 ++ [light]) else st := by
  induction layers generalizing st with
  | nil => simp [inSomeLayer]
  | cons l ls ih =>
    by_cases hst : light ∈ st.1
    · rw [foldAdd_of_mem light (l :: ls) st hst, if_pos hst]
    · by_cases hl : light ∈ l.lightsSet
      · rw [List.foldl_cons]
        have hstep : addLightFromLayer light st l = (st.1 ++ [light], st.2 ++ [light]) := by
          simp [addLightFromLayer, hl, hst]
        rw [hstep, foldAdd_of_mem light ls _ (by simp)]
        rw [if_neg hst, if_pos]
        simp [inSomeLayer, hl]
      · rw [List.foldl_cons]
        have hstep : addLightFromLayer light st l = st := by
          simp [addLightFromLayer, hl]
        have hins : inSomeLayer (l :: ls) light = inSomeLayer ls light := by
          simp [inSomeLayer, hl]
        rw [hstep, ih st, hins]

theorem collect_fold_spec (cameraLayers : List Layer) (dirLights : List Light)
    (acc : List Light) (hnd : acc.Nodup) :
    (dirLights.foldl (collectLightStep cameraLayers) (acc, acc)).1 =
      (dirLights.foldl (collectLightStep cameraLayers) (acc, acc)).2 ∧
    (dirLights.foldl (collectLightStep cameraLayers) (acc, acc)).1.Nodup ∧
    ∀ l, l ∈ (dirLights.foldl (collectLightStep cameraLayers) (acc, acc)).1 ↔
      (l ∈ acc ∨ (l ∈ dirLights ∧ keepLight cameraLayers l = true)) := by
  induction dirLights generalizing acc with
  | nil => simp [hnd]
  | cons d ds ih =>
    rw [List.foldl_cons]
    by_cases hcs : d.castShadows = true
    · by_cases hmem : d ∈ acc
      · have hstep : collectLightStep cameraLayers (acc, acc) d = (acc, acc) := by
          simp [collectLightStep, hcs, foldAdd_spec, hmem]
        rw [hstep]
        obtain ⟨h1, h2, h3⟩ := ih acc hnd
        refine ⟨h1, h2, fun l => ?_⟩
        rw [h3 l]
        constructor
        · rintro (hl | ⟨hl, hk⟩)
          · exact Or.inl hl
          · exact Or.inr ⟨List.mem_cons_of_mem _ hl, hk⟩
        · rintro (hl | ⟨hl, hk⟩)
          · exact Or.inl hl
          · rcases List.mem_cons.mp hl with rfl | hl'
            · exact Or.inl hmem
            · exact Or.inr ⟨hl', hk⟩
      · by_cases hins : inSomeLayer cameraLayers d = true
        · have hstep : collectLightStep cameraLayers (acc, acc) d =
              (acc ++ [d], acc ++ [d]) := by
            simp [collectLightStep, hcs, foldAdd_spec, hmem, hins]
          rw [hstep]
          have hnd' : (acc ++ [d]).Nodup := by
            simp [List.nodup_append, hnd, hmem]
          obtain ⟨h1, h2, h3⟩ := ih (acc ++ [d]) hnd'
          refine ⟨h1, h2, fun l => ?_⟩
          rw [h3 l]
          have hk : keepLight cameraLayers d = true := by simp [keepLight, hcs, hins]
          constructor
          · rintro (hl | ⟨hl, hkl⟩)
            · rcases List.mem_append.mp hl with hl' | hl'
              · exact Or.inl hl'
              · have hld : l = d := by simpa using hl'
                subst hld
                exact Or.inr ⟨List.mem_cons_self _ _, hk⟩
            · exact Or.inr ⟨List.mem_cons_of_mem _ hl, hkl⟩
          · rintro (hl | ⟨hl, hkl⟩)
            · exact Or.inl (List.mem_append.mpr (Or.inl hl))
            · rcases List.mem_cons.mp hl with rfl | hl'
              · exact Or.inl (List.mem_append.mpr (Or.inr (by simp)))
              · exact Or.inr ⟨hl', hkl⟩
        · have hstep : collectLightStep cameraLayers (acc, acc) d = (acc, acc) := by
            simp [collectLightStep, hcs, foldAdd_spec, hmem, hins]
          rw [hstep]
          obtain ⟨h1, h2, h3⟩ := ih acc hnd
          refine ⟨h1, h2, fun l => ?_⟩
          rw [h3 l]
          constructor
          · rintro (hl | ⟨hl, hkl⟩)
            · exact Or.inl hl
            · exact Or.inr ⟨List.mem_cons_of_mem _ hl, hkl⟩
          · rintro (hl | ⟨hl, hkl⟩)
            · exact Or.inl hl
            · rcases List.mem_cons.mp hl with rfl | hl'
              · rw [keepLight, hcs] at hkl
                simp [hins] at hkl
              · exact Or.inr ⟨hl', hkl⟩
    · have hstep : collectLightStep cameraLayers (acc, acc) d = (acc, acc) := by
        simp [collectLightStep, hcs]
      rw [hstep]
      obtain ⟨h1, h2, h3⟩ := ih acc hnd
      refine ⟨h1, h2, fun l => ?_⟩
      rw [h3 l]
      constructor
      · rintro (hl | ⟨hl, hkl⟩)
        · exact Or.inl hl
        · exact Or.inr ⟨List.mem_cons_of_mem _ hl, hkl⟩
      · rintro (hl | ⟨hl, hkl⟩)
        · exact Or.inl hl
        · rcases List.mem_cons.mp hl with rfl | hl'
          · rw [keepLight] at hkl
            simp [hcs] at hkl
          · exact Or.inr ⟨hl', hkl⟩

theorem inSomeLayer_iff (cameraLayers : List Layer) (l : Light) :
    inSomeLayer cameraLayers l = true ↔ ∃ layer ∈ cameraLayers, l ∈ layer.lightsSet := by
  simp [inSomeLayer, List.any_eq_true]

/-- Claim C8: after `collectDirectionalLights`, `directionalLights` contains
exactly the shadow-casting lights of `dirLights` that are in at least one
camera layer's light set, each exactly once, with `directionalLightsSet`
holding the same elements; and `isLayerEnabled` returns `true` if and only if
the layer at `layerIndex` is enabled and `subLayerEnabled[layerIndex]` is
`true`. -/
theorem C8_render_action_bookkeeping (cameraLayers : List Layer) (dirLights : List Light)
    (ra : RenderAction) (c : LayerComposition) (h : ra.layerIndex < c.layerList.length) :
    (collectDirectionalLights cameraLayers dirLights).1 =
      (collectDirectionalLights cameraLayers dirLights).2 ∧
    (collectDirectionalLights cameraLayers dirLights).2.Nodup ∧
    (∀ l : Light, l ∈ (collectDirectionalLights cameraLayers dirLights).2 ↔
      (l ∈ dirLights ∧ l.castShadows = true ∧
        ∃ layer ∈ cameraLayers, l ∈ layer.lightsSet)) ∧
    (ra.isLayerEnabled c = true ↔
      ((c.layerList.get ⟨ra.layerIndex, h⟩).enabled = true ∧
        c.subLayerEnabled.get? ra.layerIndex = some true)) := by
  obtain ⟨h1, h2, h3⟩ := collect_fold_spec cameraLayers dirLights [] List.nodup_nil
  refine ⟨h1, h1 ▸ h2, fun l => ?_, ?_⟩
  · unfold collectDirectionalLights
    rw [← h1, h3 l]
    simp [keepLight, inSomeLayer_iff, and_assoc]
  · unfold RenderAction.isLayerEnabled
    rw [List.get?_eq_get h]
    rcases hsub : c.subLayerEnabled.get? ra.layerIndex with _ | b
    · simp
    · simp [Bool.and_eq_true]

/-- Witness for C8 at a concrete layer composition and light list. -/
theorem C8_render_action_bookkeeping_witness :
    (⟨0⟩ : RenderAction).layerIndex <
      (⟨[⟨true, []⟩], [true]⟩ : LayerComposition).layerList.length ∧
    ((collectDirectionalLights [⟨true, [⟨5, true⟩]⟩] [⟨5, true⟩, ⟨6, false⟩]).1 =
      (collectDirectionalLights [⟨true, [⟨5, true⟩]⟩] [⟨5, true⟩, ⟨6, false⟩]).2 ∧
     (collectDirectionalLights [⟨true, [⟨5, true⟩]⟩] [⟨5, true⟩, ⟨6, false⟩]).2.Nodup ∧
     (∀ l : Light, l ∈ (collectDirectionalLights [⟨true, [⟨5, true⟩]⟩]
        [⟨5, true⟩, ⟨6, false⟩]).2 ↔
       (l ∈ [⟨5, true⟩, ⟨6, false⟩] ∧ l.castShadows = true ∧
         ∃ layer ∈ [(⟨true, [⟨5, true⟩]⟩ : Layer)], l ∈ layer.lightsSet)) ∧
     ((⟨0⟩ : RenderAction).isLayerEnabled ⟨[⟨true, []⟩], [true]⟩ = true ↔
       (((⟨[⟨true, []⟩], [true]⟩ : LayerComposition).layerList.get
           ⟨0, by decide⟩).enabled = true ∧
         (⟨[⟨true, []⟩], [true]⟩ : LayerComposition).subLayerEnabled.get? 0 =
           some true))) :=
  ⟨by decide,
   C8_render_action_bookkeeping [⟨true, [⟨5, true⟩]⟩] [⟨5, true⟩, ⟨6, false⟩]
     ⟨0⟩ ⟨[⟨true, []⟩], [true]⟩ (by decide)⟩

/-- Witness for C9: the step recording the concrete pair (A, B) leaves a
non-empty entry for A, and a store on the empty state keeps the invariant. -/
theorem C9_collisions_nonempty_witness :
    ((0 : Nat), (⟨exEntityA, [exEntityB]⟩ : CollisionEntry)) ∈
      (checkForCollisions exEmptyState
        [⟨some exEntityA, some exEntityB, false, false, 1⟩]).1.collisions ∧
    ((0 : Nat), (⟨exEntityA, [exEntityB]⟩ : CollisionEntry)).2.others ≠ [] ∧
    (∀ p ∈ (storeCollision exEmptyState exEntityA exEntityB).2.collisions,
      p.2.others ≠ []) :=
  ⟨by decide,
   (C9_collisions_nonempty exEmptyState exEmptyState
     [⟨some exEntityA, some exEntityB, false, false, 1⟩] exEntityA exEntityB).1
     _ (by decide),
   (C9_collisions_nonempty exEmptyState exEmptyState
     [⟨some exEntityA, some exEntityB, false, false, 1⟩] exEntityA exEntityB).2
     (by decide)⟩

end PCE
